import Mathlib

/-!
# Verification of the senti-sociac collection-and-aggregation pipeline

Shallow embedding of the sentiment scorer (`SimpleSentimentAnalyzer.evaluate`),
the source-adapter/collector orchestration (`Collector.collect`), the job
construction (`create_job`) and the aggregator (`Analyzer.analyze`) of the
repository, together with theorems settling the specification claims.

Modelling conventions: Python floats are modelled as exact rationals (`Rat`);
Python `int` as `Int`; Python `None` as `Option.none`; a `fetch` call that can
raise is modelled as `Except String`; Python string truthiness (`if s:`) is
`s ≠ ""` on a present string.  `str.lower` is modelled by its action on ASCII
letters (the lexicons and the token character class are ASCII).
-/

/-- A raw record produced by a source adapter
(`ExternalPost` in `app/services/collector.py`). -/
structure ExternalPost where
  content : String
  source : String
  collectedAt : Nat
  authorLocation : Option String
  sentimentLabel : Option String
  sentimentScore : Option Rat
deriving DecidableEq

/-- The positive lexicon of `SimpleSentimentAnalyzer`. -/
def positiveWords : List String :=
  ["good", "great", "excellent", "love", "amazing", "excited", "celebrate", "growth"]

/-- The negative lexicon of `SimpleSentimentAnalyzer`. -/
def negativeWords : List String :=
  ["bad", "terrible", "awful", "hate", "concern", "worried", "decline", "risk"]

/-- ASCII lowercasing, the action of Python `str.lower` on the characters the
token character class can match. -/
def lowerChar (c : Char) : Char :=
  if 'A' ≤ c ∧ c ≤ 'Z' then Char.ofNat (c.toNat + 32) else c

/-- Characters matched by the regex `[a-zA-Z']` (39 is the apostrophe). -/
def isTokenChar (c : Char) : Bool :=
  ('a' ≤ c && c ≤ 'z') || ('A' ≤ c && c ≤ 'Z') || c == Char.ofNat 39

/-- Worker for `tokenize`: `acc` holds the characters of the current token in
reverse. -/
def tokenizeAux : List Char → List Char → List (List Char)
  | [], acc => if acc.isEmpty then [] else [acc.reverse]
  | c :: cs, acc =>
    if isTokenChar c then
      tokenizeAux cs (c :: acc)
    else if acc.isEmpty then
      tokenizeAux cs []
    else
      acc.reverse :: tokenizeAux cs []

/-- `re.findall(r"[a-zA-Z']+", s)`: the maximal runs of token characters. -/
def tokenize (s : List Char) : List (List Char) :=
  tokenizeAux s []

/-- The token list of a text: `re.findall(r"[a-zA-Z']+", text.lower())`. -/
def textTokens (text : String) : List (List Char) :=
  tokenize (text.data.map lowerChar)

/-- The per-token scoring loop of `SimpleSentimentAnalyzer.evaluate`:
`+1` for a positive-lexicon hit, `-1` for a negative-lexicon hit. -/
def scoreTokens (tokens : List (List Char)) : Int :=
  tokens.foldl
    (fun acc t =>
      acc + (if String.mk t ∈ positiveWords then 1 else 0)
          - (if String.mk t ∈ negativeWords then 1 else 0))
    0

/-- `score / max(len(tokens), 1)` of `SimpleSentimentAnalyzer.evaluate`. -/
def normalizedScore (text : String) : Rat :=
  (scoreTokens (textTokens text) : Rat) / ((max (textTokens text).length 1 : Nat) : Rat)

/-- The token-analysis branch of `SimpleSentimentAnalyzer.evaluate`. -/
def evalText (text : String) : String × Rat :=
  if (1 : Rat)/20 < normalizedScore text then ("positive", normalizedScore text)
  else if normalizedScore text < -((1 : Rat)/20) then ("negative", normalizedScore text)
  else ("neutral", normalizedScore text)

/-- Python truthiness of `existing_label` (`None` and `""` are falsy). -/
def labelTruthy : Option String → Bool
  | none => false
  | some l => l != ""

/-- The guard `existing_label and existing_score is not None` of
`SimpleSentimentAnalyzer.evaluate`. -/
def shortCircuits (existingLabel : Option String) (existingScore : Option Rat) : Bool :=
  labelTruthy existingLabel && existingScore.isSome

/-- `SimpleSentimentAnalyzer.evaluate`. -/
def evaluate (text : String) (existingLabel : Option String) (existingScore : Option Rat) :
    String × Rat :=
  if shortCircuits existingLabel existingScore then
    (existingLabel.getD "", existingScore.getD 0)
  else
    evalText text

/-- Python truthiness defaulting of `post.author_location or "Unknown"`. -/
def locTruthy : Option String → String
  | none => "Unknown"
  | some loc => if loc = "" then "Unknown" else loc

/-- `Collector._normalize_post`: populate sentiment and default the location. -/
def normalizePost (e : ExternalPost) : ExternalPost :=
  { e with
    sentimentLabel := some (evaluate e.content e.sentimentLabel e.sentimentScore).1
    sentimentScore := some (evaluate e.content e.sentimentLabel e.sentimentScore).2
    authorLocation := some (locTruthy e.authorLocation) }

section ScorerLemmas

theorem scoreTokens_foldl (ts : List (List Char)) :
    ∀ a : Int,
      List.foldl
        (fun acc t =>
          acc + (if String.mk t ∈ positiveWords then 1 else 0)
              - (if String.mk t ∈ negativeWords then 1 else 0))
        a ts
      = a + (ts.countP (fun t => decide (String.mk t ∈ positiveWords)) : Int)
          - (ts.countP (fun t => decide (String.mk t ∈ negativeWords)) : Int) := by
  induction ts with
  | nil => intro a; simp
  | cons t ts ih =>
    intro a
    simp only [List.foldl_cons, List.countP_cons, ih]
    by_cases h1 : String.mk t ∈ positiveWords <;> by_cases h2 : String.mk t ∈ negativeWords <;>
      simp [h1, h2] <;> omega

theorem scoreTokens_eq_counts (ts : List (List Char)) :
    scoreTokens ts
      = (ts.countP (fun t => decide (String.mk t ∈ positiveWords)) : Int)
        - (ts.countP (fun t => decide (String.mk t ∈ negativeWords)) : Int) := by
  have h := scoreTokens_foldl ts 0
  simpa [scoreTokens] using h

theorem scoreTokens_bounds (ts : List (List Char)) :
    -(ts.length : Int) ≤ scoreTokens ts ∧ scoreTokens ts ≤ (ts.length : Int) := by
  rw [scoreTokens_eq_counts]
  have h1 := ts.countP_le_length (p := fun t => decide (String.mk t ∈ positiveWords))
  have h2 := ts.countP_le_length (p := fun t => decide (String.mk t ∈ negativeWords))
  omega

theorem normalizedScore_bounds (text : String) :
    -1 ≤ normalizedScore text ∧ normalizedScore text ≤ 1 := by
  unfold normalizedScore
  set s := scoreTokens (textTokens text) with hs
  set n := (textTokens text).length with hn
  have hb := scoreTokens_bounds (textTokens text)
  have hmpos : (0 : Rat) < ((max n 1 : Nat) : Rat) := by
    have : 1 ≤ max n 1 := le_max_right n 1
    exact_mod_cast Nat.lt_of_lt_of_le Nat.zero_lt_one this
  have hsle : (s : Rat) ≤ ((max n 1 : Nat) : Rat) := by
    have : s ≤ ((max n 1 : Nat) : Int) := by
      have := hb.2
      have hle : (n : Int) ≤ ((max n 1 : Nat) : Int) := by
        exact_mod_cast le_max_left n 1
      omega
    exact_mod_cast this
  have hsge : -((max n 1 : Nat) : Rat) ≤ (s : Rat) := by
    have : -((max n 1 : Nat) : Int) ≤ s := by
      have := hb.1
      have hle : (n : Int) ≤ ((max n 1 : Nat) : Int) := by
        exact_mod_cast le_max_left n 1
      omega
    exact_mod_cast this
  constructor
  · rw [le_div_iff₀ hmpos]
    linarith
  · rw [div_le_one hmpos]
    exact hsle

theorem evalText_pos (text : String) (h : (1 : Rat)/20 < normalizedScore text) :
    evalText text = ("positive", normalizedScore text) := by
  unfold evalText
  rw [if_pos h]

theorem evalText_neg (text : String) (h1 : ¬ (1 : Rat)/20 < normalizedScore text)
    (h2 : normalizedScore text < -((1 : Rat)/20)) :
    evalText text = ("negative", normalizedScore text) := by
  unfold evalText
  rw [if_neg h1, if_pos h2]

theorem evalText_neu (text : String) (h1 : ¬ (1 : Rat)/20 < normalizedScore text)
    (h2 : ¬ normalizedScore text < -((1 : Rat)/20)) :
    evalText text = ("neutral", normalizedScore text) := by
  unfold evalText
  rw [if_neg h1, if_neg h2]

theorem evalText_snd (text : String) : (evalText text).2 = normalizedScore text := by
  unfold evalText
  split_ifs <;> rfl

theorem evalText_fst_iff (text : String) :
    ((evalText text).1 = "positive" ↔ (1 : Rat)/20 < normalizedScore text)
    ∧ ((evalText text).1 = "negative" ↔ normalizedScore text < -((1 : Rat)/20))
    ∧ ((evalText text).1 = "neutral" ↔
        (-((1 : Rat)/20) ≤ normalizedScore text ∧ normalizedScore text ≤ (1 : Rat)/20)) := by
  by_cases h1 : (1 : Rat)/20 < normalizedScore text
  · rw [evalText_pos text h1]
    refine ⟨⟨fun _ => h1, fun _ => rfl⟩, ⟨fun h => ?_, fun h => ?_⟩, ⟨fun h => ?_, fun h => ?_⟩⟩
    · exact absurd (show ("positive" : String) = "negative" from h) (by decide)
    · exact absurd h1 (by linarith)
    · exact absurd (show ("positive" : String) = "neutral" from h) (by decide)
    · exact absurd h1 (by linarith [h.2])
  · by_cases h2 : normalizedScore text < -((1 : Rat)/20)
    · rw [evalText_neg text h1 h2]
      refine ⟨⟨fun h => ?_, fun h => ?_⟩, ⟨fun _ => h2, fun _ => rfl⟩, ⟨fun h => ?_, fun h => ?_⟩⟩
      · exact absurd (show ("negative" : String) = "positive" from h) (by decide)
      · exact absurd h h1
      · exact absurd (show ("negative" : String) = "neutral" from h) (by decide)
      · exact absurd h2 (by linarith [h.1])
    · rw [evalText_neu text h1 h2]
      refine ⟨⟨fun h => ?_, fun h => ?_⟩, ⟨fun h => ?_, fun h => ?_⟩, ⟨fun _ => ?_, fun _ => rfl⟩⟩
      · exact absurd (show ("neutral" : String) = "positive" from h) (by decide)
      · exact absurd h h1
      · exact absurd (show ("neutral" : String) = "negative" from h) (by decide)
      · exact absurd h h2
      · exact ⟨le_of_not_lt h2, le_of_not_lt h1⟩

theorem evalText_fst_ne_empty (text : String) : (evalText text).1 ≠ "" := by
  by_cases h1 : (1 : Rat)/20 < normalizedScore text
  · rw [evalText_pos text h1]
    intro h
    exact absurd (show ("positive" : String) = "" from h) (by decide)
  · by_cases h2 : normalizedScore text < -((1 : Rat)/20)
    · rw [evalText_neg text h1 h2]
      intro h
      exact absurd (show ("negative" : String) = "" from h) (by decide)
    · rw [evalText_neu text h1 h2]
      intro h
      exact absurd (show ("neutral" : String) = "" from h) (by decide)

theorem evaluate_none_none (text : String) : evaluate text none none = evalText text := by
  simp [evaluate, shortCircuits, labelTruthy]

theorem evaluate_fst_ne_empty (text : String) (lab : Option String) (sc : Option Rat) :
    (evaluate text lab sc).1 ≠ "" := by
  unfold evaluate
  split_ifs with h
  · unfold shortCircuits labelTruthy at h
    match lab with
    | none => simp at h
    | some l =>
      simp only [Bool.and_eq_true, bne_iff_ne, ne_eq] at h
      simpa using h.1
  · exact evalText_fst_ne_empty text

end ScorerLemmas

/-- C5: for text with no pre-existing sentiment, `evaluate`'s score is
`(positive hits - negative hits) / max(token count, 1)` over the alphabetic
tokens of the lowercased text, the label is `positive` iff the score strictly
exceeds `1/20`, `negative` iff it is strictly below `-1/20`, `neutral`
otherwise (so exactly `±1/20` is neutral), and empty text yields
`("neutral", 0)`. -/
theorem scorer_formula_and_thresholds_c5 (text : String) (l : String) (s : Rat)
    (h : evaluate text none none = (l, s)) :
    s = (((textTokens text).countP (fun t => decide (String.mk t ∈ positiveWords)) : Int)
          - ((textTokens text).countP (fun t => decide (String.mk t ∈ negativeWords)) : Int) : Rat)
        / ((max (textTokens text).length 1 : Nat) : Rat)
    ∧ (l = "positive" ↔ (1 : Rat)/20 < s)
    ∧ (l = "negative" ↔ s < -((1 : Rat)/20))
    ∧ (l = "neutral" ↔ (-((1 : Rat)/20) ≤ s ∧ s ≤ (1 : Rat)/20))
    ∧ evaluate "" none none = ("neutral", 0) := by
  rw [evaluate_none_none] at h
  have hs : s = normalizedScore text := by
    rw [← evalText_snd text, h]
  have hl : l = (evalText text).1 := by rw [h]
  have hiff := evalText_fst_iff text
  refine ⟨?_, ?_, ?_, ?_, ?_⟩
  · rw [hs]
    unfold normalizedScore
    rw [scoreTokens_eq_counts]
    push_cast
    ring
  · rw [hl, hs]; exact hiff.1
  · rw [hl, hs]; exact hiff.2.1
  · rw [hl, hs]; exact hiff.2.2
  · have ht : textTokens "" = [] := by decide
    rw [evaluate_none_none]
    unfold evalText normalizedScore
    norm_num [ht, scoreTokens]

/-- Witness for C5 at the concrete text "good". -/
theorem scorer_formula_and_thresholds_c5_witness :
    evaluate "good" none none = ("positive", 1)
    ∧ (("positive" : String) = "positive" ↔ (1 : Rat)/20 < 1) := by
  have ht : textTokens "good" = [['g', 'o', 'o', 'd']] := by decide
  have hsc : scoreTokens [['g', 'o', 'o', 'd']] = 1 := by decide
  have heval : evaluate "good" none none = ("positive", 1) := by
    rw [evaluate_none_none]
    unfold evalText normalizedScore
    norm_num [ht, hsc]
  exact ⟨heval, (scorer_formula_and_thresholds_c5 "good" "positive" 1 heval).2.1⟩

/-- C6 counterexample: both existing values are provided, but because the
provided label is the empty string (falsy in Python) the short-circuit does
not fire and `evaluate` recomputes from the text instead of returning the
pair unchanged. -/
theorem scorer_short_circuit_c6_counterexample :
    evaluate "good" (some "") (some ((3 : Rat)/10)) ≠ ("", (3 : Rat)/10) := by
  intro h
  have := evaluate_fst_ne_empty "good" (some "") (some ((3 : Rat)/10))
  rw [h] at this
  exact this rfl

/-- C6 (amended): whenever both existing values are provided and the provided
label is a non-empty string, `evaluate` returns them unchanged without token
analysis. -/
theorem scorer_short_circuit_c6 (text : String) (l : String) (s : Rat) (hl : l ≠ "") :
    evaluate text (some l) (some s) = (l, s) := by
  unfold evaluate shortCircuits labelTruthy
  simp [hl]

/-- Witness for C6 (amended). -/
theorem scorer_short_circuit_c6_witness :
    ("positive" : String) ≠ "" ∧
      evaluate "terrible stuff" (some "positive") (some ((1 : Rat)/2))
        = ("positive", (1 : Rat)/2) :=
  ⟨by decide, scorer_short_circuit_c6 "terrible stuff" "positive" ((1 : Rat)/2) (by decide)⟩

/-- C10: if exactly one of the pre-existing sentiment fields is present, the
partial value is ignored: normalization recomputes both label and score from
the text, and the normalized record carries both values. -/
theorem scorer_partial_recompute_c10 (e : ExternalPost)
    (h : (∃ l, e.sentimentLabel = some l ∧ e.sentimentScore = none)
       ∨ (e.sentimentLabel = none ∧ ∃ s, e.sentimentScore = some s)) :
    (normalizePost e).sentimentLabel = some (evaluate e.content none none).1
    ∧ (normalizePost e).sentimentScore = some (evaluate e.content none none).2 := by
  rw [evaluate_none_none]
  rcases h with ⟨l, hl, hsc⟩ | ⟨hl, s, hsc⟩ <;>
    simp [normalizePost, evaluate, shortCircuits, labelTruthy, hl, hsc]

/-- Witness for C10: a record with a label but no score is rescored from its
text. -/
theorem scorer_partial_recompute_c10_witness :
    ((∃ l, (some "positive" : Option String) = some l ∧ (none : Option Rat) = none)
      ∨ ((some "positive" : Option String) = none ∧ ∃ s, (none : Option Rat) = some s))
    ∧ (normalizePost
        { content := "bad", source := "Twitter", collectedAt := 0,
          authorLocation := none, sentimentLabel := some "positive",
          sentimentScore := none }).sentimentLabel = some (evaluate "bad" none none).1 := by
  refine ⟨Or.inl ⟨"positive", rfl, rfl⟩, ?_⟩
  exact (scorer_partial_recompute_c10
    { content := "bad", source := "Twitter", collectedAt := 0,
      authorLocation := none, sentimentLabel := some "positive", sentimentScore := none }
    (Or.inl ⟨"positive", rfl, rfl⟩)).1

/-! ## Collector embedding -/

/-- A persisted record (`Post` in `app/models.py`); the ORM columns are
non-nullable. -/
structure Post where
  jobId : Nat
  source : String
  authorLocation : String
  content : String
  collectedAt : Nat
  sentimentLabel : String
  sentimentScore : Rat
deriving DecidableEq

/-- A source adapter behind the uniform contract (`configured`, `fetch`);
a fetch that raises a hard provider error is an `Except.error`. -/
structure Adapter where
  configured : Bool
  fetch : String → Int → Except String (List ExternalPost)

/-- Construction of the `Post` row from a normalized `ExternalPost` inside
`Collector.collect`'s inner loop. -/
def toPost (jid : Nat) (e : ExternalPost) : Post :=
  let n := normalizePost e
  { jobId := jid
    source := n.source
    authorLocation := n.authorLocation.getD "Unknown"
    content := n.content
    collectedAt := n.collectedAt
    sentimentLabel := n.sentimentLabel.getD ""
    sentimentScore := n.sentimentScore.getD 0 }

/-- The inner loop of `Collector.collect` over one adapter's fetched list:
normalize and append each record, decrement `remaining`, and break once
`remaining` hits zero.  Returns the appended posts and the new `remaining`. -/
def takePosts (jid : Nat) : Int → List ExternalPost → List Post × Int
  | remaining, [] => ([], remaining)
  | remaining, e :: es =>
    if remaining - 1 ≤ 0 then
      ([toPost jid e], remaining - 1)
    else
      let res := takePosts jid (remaining - 1) es
      (toPost jid e :: res.1, res.2)

/-- The outer loop of `Collector.collect` over the adapter list: stop when the
budget is exhausted, skip unconfigured adapters, propagate a fetch error. -/
def collectAdapters (jid : Nat) (q : String) : Int → List Adapter → Except String (List Post)
  | _, [] => Except.ok []
  | remaining, a :: rest =>
    if remaining ≤ 0 then Except.ok []
    else if a.configured = false then collectAdapters jid q remaining rest
    else
      match a.fetch q remaining with
      | Except.error msg => Except.error msg
      | Except.ok fetched =>
        let pr := takePosts jid remaining fetched
        match collectAdapters jid q pr.2 rest with
        | Except.error msg => Except.error msg
        | Except.ok more => Except.ok (pr.1 ++ more)

/-- The failure modes of `Collector.collect`: a propagated adapter exception,
or the `ValueError` raised when nothing was collected. -/
inductive CollectError where
  | fetchError (msg : String)
  | noData (msg : String)
deriving DecidableEq

/-- The message of the "no data collected" `ValueError`. -/
def noDataMessage : String :=
  "No posts collected. Ensure API credentials are configured and the query returns data."

/-- `Collector.collect`: run the adapters under the shared budget, then fail
if and only if no post was collected. -/
def collect (jid : Nat) (q : String) (limit : Int) (adapters : List Adapter) :
    Except CollectError (List Post) :=
  match collectAdapters jid q limit adapters with
  | Except.error msg => Except.error (CollectError.fetchError msg)
  | Except.ok posts =>
    if posts.isEmpty then Except.error (CollectError.noData noDataMessage)
    else Except.ok posts

/-- The `Collector` holds its three clients; `collect` iterates them in the
fixed order Twitter, Reddit, NewsAPI. -/
structure Collector where
  twitter : Adapter
  reddit : Adapter
  news : Adapter

/-- `Collector.collect` with the fixed adapter priority order. -/
def Collector.collectJob (c : Collector) (jid : Nat) (q : String) (limit : Int) :
    Except CollectError (List Post) :=
  collect jid q limit [c.twitter, c.reddit, c.news]

/-- A job row (`Job` in `app/models.py`). -/
structure Job where
  id : Nat
  query : String
  limit : Int
deriving DecidableEq

/-- `create_job` in `app/main.py`: the form default applies when the field is
absent, then `limit or 50000` replaces a falsy (zero) limit. -/
def createJob (query : String) (suppliedLimit : Option Int) : Job :=
  let formLimit := suppliedLimit.getD 50000
  { id := 0
    query := query.trim
    limit := if formLimit = 0 then 50000 else formLimit }

section CollectorLemmas

theorem locTruthy_ne_empty (o : Option String) : locTruthy o ≠ "" := by
  cases o with
  | none => decide
  | some loc =>
    show (if loc = "" then "Unknown" else loc) ≠ ""
    split_ifs with h
    · decide
    · exact h

theorem toPost_authorLocation (jid : Nat) (e : ExternalPost) :
    (toPost jid e).authorLocation = locTruthy e.authorLocation := rfl

theorem toPost_sentimentLabel (jid : Nat) (e : ExternalPost) :
    (toPost jid e).sentimentLabel
      = (evaluate e.content e.sentimentLabel e.sentimentScore).1 := rfl

theorem toPost_sentimentScore (jid : Nat) (e : ExternalPost) :
    (toPost jid e).sentimentScore
      = (evaluate e.content e.sentimentLabel e.sentimentScore).2 := rfl

theorem normalizePost_authorLocation (e : ExternalPost) :
    (normalizePost e).authorLocation = some (locTruthy e.authorLocation) := rfl

theorem evaluate_no_short (text : String) (lab : Option String) (sc : Option Rat)
    (h : shortCircuits lab sc = false) : evaluate text lab sc = evalText text := by
  unfold evaluate
  simp [h]

theorem takePosts_full (jid : Nat) :
    ∀ (l : List ExternalPost) (rem : Int), (l.length : Int) < rem →
      takePosts jid rem l = (l.map (toPost jid), rem - l.length) := by
  intro l
  induction l with
  | nil => intro rem _; simp [takePosts]
  | cons e es ih =>
    intro rem h
    have hlen : ((es.length : Int)) < rem - 1 := by
      simp only [List.length_cons] at h
      push_cast at h ⊢
      omega
    have hnn : (0 : Int) ≤ (es.length : Int) := Int.natCast_nonneg _
    have hnot : ¬ (rem - 1 ≤ 0) := by omega
    simp only [takePosts, if_neg hnot, ih (rem - 1) hlen]
    simp only [List.map_cons, List.length_cons, Prod.mk.injEq, true_and]
    push_cast
    ring

theorem takePosts_exact (jid : Nat) :
    ∀ (l : List ExternalPost) (k : Nat), 1 ≤ k → k ≤ l.length →
      takePosts jid (k : Int) l = ((l.take k).map (toPost jid), 0) := by
  intro l
  induction l with
  | nil => intro k h1 h2; simp at h2; omega
  | cons e es ih =>
    intro k h1 h2
    by_cases hk : k = 1
    · subst hk
      simp [takePosts]
    · have hk2 : 2 ≤ k := by omega
      have hnot : ¬ ((k : Int) - 1 ≤ 0) := by
        have : (2 : Int) ≤ (k : Int) := by exact_mod_cast hk2
        omega
      have hcast : (k : Int) - 1 = ((k - 1 : Nat) : Int) := by
        omega
      have hk1le : k - 1 ≤ es.length := by
        simp only [List.length_cons] at h2
        omega
      have hnot' : ¬ (((k - 1 : Nat) : Int) ≤ 0) := by rw [← hcast]; exact hnot
      have htake : (e :: es).take k = e :: es.take (k - 1) := by
        cases k with
        | zero => omega
        | succ n => simp [List.take_succ_cons]
      simp only [takePosts, hcast, if_neg hnot', ih (k - 1) (by omega) hk1le, htake,
        List.map_cons]

theorem takePosts_spec (jid : Nat) :
    ∀ (l : List ExternalPost) (rem : Int), 1 ≤ rem →
      (takePosts jid rem l).2 = rem - ((takePosts jid rem l).1.length : Int)
      ∧ 0 ≤ (takePosts jid rem l).2 := by
  intro l
  induction l with
  | nil =>
    intro rem h
    simp only [takePosts, List.length_nil]
    push_cast
    omega
  | cons e es ih =>
    intro rem h
    by_cases hstop : rem - 1 ≤ 0
    · have hrem : rem = 1 := by omega
      subst hrem
      simp [takePosts]
    · have h1 : 1 ≤ rem - 1 := by omega
      have := ih (rem - 1) h1
      simp only [takePosts, if_neg hstop, List.length_cons]
      push_cast
      omega

theorem takePosts_mem (jid : Nat) :
    ∀ (l : List ExternalPost) (rem : Int) (p : Post),
      p ∈ (takePosts jid rem l).1 → ∃ e, e ∈ l ∧ p = toPost jid e := by
  intro l
  induction l with
  | nil => intro rem p h; simp [takePosts] at h
  | cons e es ih =>
    intro rem p h
    by_cases hstop : rem - 1 ≤ 0
    · simp only [takePosts, if_pos hstop, List.mem_singleton] at h
      exact ⟨e, List.mem_cons_self e es, h⟩
    · simp only [takePosts, if_neg hstop, List.mem_cons] at h
      rcases h with h | h
      · exact ⟨e, List.mem_cons_self e es, h⟩
      · obtain ⟨e', he', hp⟩ := ih (rem - 1) p h
        exact ⟨e', List.mem_cons_of_mem e he', hp⟩

theorem collectAdapters_nil (jid : Nat) (q : String) (rem : Int) :
    collectAdapters jid q rem [] = Except.ok [] := rfl

theorem collectAdapters_stop (jid : Nat) (q : String) (rem : Int) (a : Adapter)
    (rest : List Adapter) (h : rem ≤ 0) :
    collectAdapters jid q rem (a :: rest) = Except.ok [] := by
  simp only [collectAdapters, if_pos h]

theorem collectAdapters_skip (jid : Nat) (q : String) (rem : Int) (a : Adapter)
    (rest : List Adapter) (h : ¬ rem ≤ 0) (hc : a.configured = false) :
    collectAdapters jid q rem (a :: rest) = collectAdapters jid q rem rest := by
  simp only [collectAdapters, if_neg h, if_pos hc]

theorem collectAdapters_error (jid : Nat) (q : String) (rem : Int) (a : Adapter)
    (rest : List Adapter) (msg : String) (h : ¬ rem ≤ 0) (hc : a.configured = true)
    (hf : a.fetch q rem = Except.error msg) :
    collectAdapters jid q rem (a :: rest) = Except.error msg := by
  simp only [collectAdapters, if_neg h, hc, if_neg (by simp : ¬ (true = false)), hf]

theorem collectAdapters_fetch (jid : Nat) (q : String) (rem : Int) (a : Adapter)
    (rest : List Adapter) (fetched : List ExternalPost) (h : ¬ rem ≤ 0)
    (hc : a.configured = true) (hf : a.fetch q rem = Except.ok fetched) :
    collectAdapters jid q rem (a :: rest)
      = match collectAdapters jid q (takePosts jid rem fetched).2 rest with
        | Except.error msg => Except.error msg
        | Except.ok more => Except.ok ((takePosts jid rem fetched).1 ++ more) := by
  simp only [collectAdapters, if_neg h, hc, if_neg (by simp : ¬ (true = false)), hf]

end CollectorLemmas

section CollectorRunLemmas

theorem collectAdapters_length (jid : Nat) (q : String) :
    ∀ (ads : List Adapter) (rem : Int) (posts : List Post),
      collectAdapters jid q rem ads = Except.ok posts → (posts.length : Int) ≤ max rem 0 := by
  intro ads
  induction ads with
  | nil =>
    intro rem posts h
    rw [collectAdapters_nil] at h
    cases h
    simp only [List.length_nil, Nat.cast_zero]
    exact le_max_right rem 0
  | cons a rest ih =>
    intro rem posts h
    by_cases hrem : rem ≤ 0
    · rw [collectAdapters_stop jid q rem a rest hrem] at h
      cases h
      simp only [List.length_nil, Nat.cast_zero]
      exact le_max_right rem 0
    · have hmax : max rem 0 = rem := max_eq_left (by omega)
      rw [hmax]
      by_cases hc : a.configured = false
      · rw [collectAdapters_skip jid q rem a rest hrem hc] at h
        have := ih rem posts h
        rw [hmax] at this
        exact this
      · have hc' : a.configured = true := by
          cases hcfg : a.configured
          · exact absurd hcfg hc
          · rfl
        cases hf : a.fetch q rem with
        | error msg =>
          rw [collectAdapters_error jid q rem a rest msg hrem hc' hf] at h
          cases h
        | ok fetched =>
          rw [collectAdapters_fetch jid q rem a rest fetched hrem hc' hf] at h
          cases hrec : collectAdapters jid q (takePosts jid rem fetched).2 rest with
          | error msg => rw [hrec] at h; cases h
          | ok more =>
            rw [hrec] at h
            injection h with h
            subst h
            have hspec := takePosts_spec jid fetched rem (by omega)
            have hmore := ih (takePosts jid rem fetched).2 more hrec
            have hmax2 : max (takePosts jid rem fetched).2 0 = (takePosts jid rem fetched).2 :=
              max_eq_left hspec.2
            rw [hmax2] at hmore
            simp only [List.length_append]
            push_cast
            omega

theorem collectAdapters_mem (jid : Nat) (q : String) :
    ∀ (ads : List Adapter) (rem : Int) (posts : List Post) (p : Post),
      collectAdapters jid q rem ads = Except.ok posts → p ∈ posts →
      ∃ e, p = toPost jid e := by
  intro ads
  induction ads with
  | nil =>
    intro rem posts p h hp
    rw [collectAdapters_nil] at h
    cases h
    simp at hp
  | cons a rest ih =>
    intro rem posts p h hp
    by_cases hrem : rem ≤ 0
    · rw [collectAdapters_stop jid q rem a rest hrem] at h
      cases h
      simp at hp
    · by_cases hc : a.configured = false
      · rw [collectAdapters_skip jid q rem a rest hrem hc] at h
        exact ih rem posts p h hp
      · have hc' : a.configured = true := by
          cases hcfg : a.configured
          · exact absurd hcfg hc
          · rfl
        cases hf : a.fetch q rem with
        | error msg =>
          rw [collectAdapters_error jid q rem a rest msg hrem hc' hf] at h
          cases h
        | ok fetched =>
          rw [collectAdapters_fetch jid q rem a rest fetched hrem hc' hf] at h
          cases hrec : collectAdapters jid q (takePosts jid rem fetched).2 rest with
          | error msg => rw [hrec] at h; cases h
          | ok more =>
            rw [hrec] at h
            injection h with h
            subst h
            rcases List.mem_append.mp hp with hmem | hmem
            · obtain ⟨e, _, hpe⟩ := takePosts_mem jid fetched rem p hmem
              exact ⟨e, hpe⟩
            · exact ih (takePosts jid rem fetched).2 more p hrec hmem

theorem collect_ok_iff (jid : Nat) (q : String) (limit : Int) (adapters : List Adapter)
    (posts : List Post) :
    collect jid q limit adapters = Except.ok posts ↔
      collectAdapters jid q limit adapters = Except.ok posts ∧ posts ≠ [] := by
  unfold collect
  cases hca : collectAdapters jid q limit adapters with
  | error msg => simp
  | ok ps =>
    by_cases hes : ps.isEmpty
    · have : ps = [] := List.isEmpty_iff.mp hes
      subst this
      simp only [hes, if_true]
      constructor
      · intro h; cases h
      · rintro ⟨h, hne⟩
        injection h with h
        exact absurd h.symm hne
    · have hne : ps ≠ [] := by
        intro hnil
        subst hnil
        exact hes rfl
      simp only [hes, if_false]
      constructor
      · intro h
        injection h with h
        subst h
        exact ⟨rfl, hne⟩
      · rintro ⟨h, _⟩
        injection h with h
        subst h
        rfl

end CollectorRunLemmas
theorem collectAdapters_fetch2 (jid : Nat) (q : String) (rem : Int) (a : Adapter)
    (rest : List Adapter) (fetched : List ExternalPost) (ps : List Post) (r : Int)
    (h : ¬ rem ≤ 0) (hc : a.configured = true) (hf : a.fetch q rem = Except.ok fetched)
    (ht : takePosts jid rem fetched = (ps, r)) :
    collectAdapters jid q rem (a :: rest)
      = match collectAdapters jid q r rest with
        | Except.error msg => Except.error msg
        | Except.ok more => Except.ok (ps ++ more) := by
  rw [collectAdapters_fetch jid q rem a rest fetched h hc hf, ht]

/-- The record contributed by the first adapter in the C1 counterexample. -/
def goodPostC1 : ExternalPost :=
  { content := "good", source := "Twitter", collectedAt := 0,
    authorLocation := none, sentimentLabel := none, sentimentScore := none }

/-- Adapter returning one record, for the C1 counterexample. -/
def twitterOneGood : Adapter :=
  { configured := true, fetch := fun _ _ => Except.ok [goodPostC1] }

/-- Adapter whose fetch raises a hard error, for the C1 counterexample. -/
def redditBoom : Adapter :=
  { configured := true, fetch := fun _ _ => Except.error "boom" }

/-- Adapter returning nothing, for the C1 counterexample. -/
def newsIdle : Adapter :=
  { configured := true, fetch := fun _ _ => Except.ok [] }

/-- C1 counterexample: the first adapter contributes a record and the second
adapter's fetch raises a hard error while the budget is not yet exhausted;
`Collector.collect` aborts with that error instead of preserving the earlier
record and skipping the failing adapter (there is no try/except around
`client.fetch` in `Collector.collect`). -/
theorem collector_error_isolation_c1_counterexample :
    Collector.collectJob
        { twitter := twitterOneGood, reddit := redditBoom, news := newsIdle } 1 "q" 3
      = Except.error (CollectError.fetchError "boom") := by
  have h0 : ¬ (3 : Int) ≤ 0 := by norm_num
  have h1 : (([goodPostC1] : List ExternalPost).length : Int) < 3 := by simp
  have ht : takePosts 1 3 [goodPostC1] = ([toPost 1 goodPostC1], 2) := by
    rw [takePosts_full 1 [goodPostC1] 3 h1]
    norm_num
  unfold Collector.collectJob collect
  rw [collectAdapters_fetch2 1 "q" 3 twitterOneGood [redditBoom, newsIdle] [goodPostC1]
    [toPost 1 goodPostC1] 2 h0 rfl rfl ht]
  rw [collectAdapters_error 1 "q" 2 redditBoom [newsIdle] "boom" (by norm_num) rfl rfl]

/-- C1 (amended): a hard (non-rate-limit) fetch error in one adapter, raised
while the budget is not yet exhausted, propagates out of `Collector.collect`:
records already collected from earlier adapters are discarded and the
remaining adapters are not queried — the whole collection aborts with the
adapter's error. -/
theorem collector_fetch_error_aborts_c1 (c : Collector) (jid : Nat) (q : String)
    (limit : Int) (l : List ExternalPost) (msg : String)
    (htw : c.twitter.configured = true)
    (hrd : c.reddit.configured = true)
    (hf : c.twitter.fetch q limit = Except.ok l)
    (hlen : (l.length : Int) < limit)
    (herr : c.reddit.fetch q (limit - l.length) = Except.error msg) :
    c.collectJob jid q limit = Except.error (CollectError.fetchError msg) := by
  unfold Collector.collectJob collect
  have hnn : (0 : Int) ≤ (l.length : Int) := Int.natCast_nonneg _
  have h0 : ¬ limit ≤ 0 := by omega
  rw [collectAdapters_fetch2 jid q limit c.twitter [c.reddit, c.news] l
    (l.map (toPost jid)) (limit - l.length) h0 htw hf (takePosts_full jid l limit hlen)]
  rw [collectAdapters_error jid q (limit - l.length) c.reddit [c.news] msg
    (by omega) hrd herr]

/-- Witness for C1 (amended). -/
theorem collector_fetch_error_aborts_c1_witness :
    Collector.collectJob
        { twitter := twitterOneGood, reddit := redditBoom, news := newsIdle } 7 "x" 5
      = Except.error (CollectError.fetchError "boom") :=
  collector_fetch_error_aborts_c1
    { twitter := twitterOneGood, reddit := redditBoom, news := newsIdle }
    7 "x" 5 [goodPostC1] "boom" rfl rfl rfl (by simp) rfl

/-- C2: under a positive limit, `Collector.collect` returns at most
`job.limit` records; if the first (Twitter) adapter alone supplies the limit,
the later adapters are never queried (the result is independent of them); and
in the scenario `limit=2` with the first configured adapter returning 3
records, the result is exactly that adapter's first 2 records in fetch
order. -/
theorem collector_limit_priority_c2 :
    (∀ (c : Collector) (jid : Nat) (q : String) (limit : Int) (posts : List Post),
        1 ≤ limit → c.collectJob jid q limit = Except.ok posts →
        (posts.length : Int) ≤ limit)
    ∧ (∀ (c c' : Collector) (jid : Nat) (q : String) (limit : Int) (l : List ExternalPost),
        1 ≤ limit → c'.twitter = c.twitter → c.twitter.configured = true →
        c.twitter.fetch q limit = Except.ok l → limit ≤ (l.length : Int) →
        c.collectJob jid q limit = c'.collectJob jid q limit)
    ∧ (∀ (c : Collector) (jid : Nat) (q : String) (e1 e2 e3 : ExternalPost),
        c.twitter.configured = true → c.twitter.fetch q 2 = Except.ok [e1, e2, e3] →
        c.collectJob jid q 2 = Except.ok [toPost jid e1, toPost jid e2]) := by
  refine ⟨?_, ?_, ?_⟩
  · intro c jid q limit posts hlim h
    unfold Collector.collectJob at h
    have hca := ((collect_ok_iff jid q limit [c.twitter, c.reddit, c.news] posts).mp h).1
    have := collectAdapters_length jid q [c.twitter, c.reddit, c.news] limit posts hca
    rwa [max_eq_left (by omega)] at this
  · intro c c' jid q limit l hlim htw hc hf hle
    have hknn : (0 : Int) ≤ limit := by omega
    have hk : ((limit.toNat : Nat) : Int) = limit := Int.toNat_of_nonneg hknn
    have h1k : 1 ≤ limit.toNat := by omega
    have hkle : limit.toNat ≤ l.length := by omega
    have ht : takePosts jid limit l = ((l.take limit.toNat).map (toPost jid), 0) := by
      rw [← hk]
      exact takePosts_exact jid l limit.toNat h1k hkle
    unfold Collector.collectJob collect
    rw [htw]
    rw [collectAdapters_fetch2 jid q limit c.twitter [c.reddit, c.news] l
      ((l.take limit.toNat).map (toPost jid)) 0 (by omega) hc hf ht]
    rw [collectAdapters_fetch2 jid q limit c.twitter [c'.reddit, c'.news] l
      ((l.take limit.toNat).map (toPost jid)) 0 (by omega) hc hf ht]
    rw [collectAdapters_stop jid q 0 c.reddit [c.news] (by omega)]
    rw [collectAdapters_stop jid q 0 c'.reddit [c'.news] (by omega)]
  · intro c jid q e1 e2 e3 hc hf
    have ht : takePosts jid 2 [e1, e2, e3] = ([toPost jid e1, toPost jid e2], 0) := by
      have h2 := takePosts_exact jid [e1, e2, e3] 2 (by omega) (by simp)
      have hcast : ((2 : Nat) : Int) = (2 : Int) := by norm_num
      rw [hcast] at h2
      simpa using h2
    unfold Collector.collectJob collect
    rw [collectAdapters_fetch2 jid q 2 c.twitter [c.reddit, c.news] [e1, e2, e3]
      [toPost jid e1, toPost jid e2] 0 (by norm_num) hc hf ht]
    rw [collectAdapters_stop jid q 0 c.reddit [c.news] (by omega)]
    rfl

/-- Three raw records for the C2 witness. -/
def extA : ExternalPost :=
  { content := "a", source := "Twitter", collectedAt := 0,
    authorLocation := none, sentimentLabel := none, sentimentScore := none }

def extB : ExternalPost :=
  { content := "b", source := "Twitter", collectedAt := 0,
    authorLocation := none, sentimentLabel := none, sentimentScore := none }

def extC : ExternalPost :=
  { content := "c", source := "Twitter", collectedAt := 0,
    authorLocation := none, sentimentLabel := none, sentimentScore := none }

/-- A configured first adapter returning three records, for the C2 witness. -/
def twitterThree : Adapter :=
  { configured := true, fetch := fun _ _ => Except.ok [extA, extB, extC] }

/-- Witness for C2 (the `limit=2`, three-candidate scenario). -/
theorem collector_limit_priority_c2_witness :
    Collector.collectJob
        { twitter := twitterThree, reddit := newsIdle, news := newsIdle } 2 "q" 2
      = Except.ok [toPost 2 extA, toPost 2 extB] :=
  collector_limit_priority_c2.2.2
    { twitter := twitterThree, reddit := newsIdle, news := newsIdle }
    2 "q" extA extB extC rfl rfl

/-- C3: `Collector.collect` never returns an empty list as a success, and it
fails with the "no data collected" error exactly when running all the
adapters produced zero records (and no adapter raised). -/
theorem collector_empty_failure_c3 (jid : Nat) (q : String) (limit : Int)
    (adapters : List Adapter) :
    collect jid q limit adapters ≠ Except.ok ([] : List Post)
    ∧ (collect jid q limit adapters = Except.error (CollectError.noData noDataMessage)
        ↔ collectAdapters jid q limit adapters = Except.ok ([] : List Post)) := by
  constructor
  · intro h
    exact ((collect_ok_iff jid q limit adapters []).mp h).2 rfl
  · unfold collect
    cases hca : collectAdapters jid q limit adapters with
    | error msg => simp
    | ok ps =>
      by_cases hes : ps.isEmpty
      · have hnil : ps = [] := List.isEmpty_iff.mp hes
        subst hnil
        simp
      · have hne : ps ≠ [] := by
          intro hnil
          subst hnil
          exact hes rfl
        simp [hes, hne]

/-- Witness for C3 at a concrete run with no adapters. -/
theorem collector_empty_failure_c3_witness :
    collect 0 "q" 1 ([] : List Adapter) ≠ Except.ok ([] : List Post)
    ∧ (collect 0 "q" 1 ([] : List Adapter)
          = Except.error (CollectError.noData noDataMessage)
        ↔ collectAdapters 0 "q" 1 ([] : List Adapter) = Except.ok ([] : List Post)) :=
  collector_empty_failure_c3 0 "q" 1 []

/-- C7 counterexample: `limit or 50000` only replaces a falsy (zero) limit,
so a negative supplied limit (here `-3`, which is `≤ 0`) is stored as-is
rather than being defaulted to 50000. -/
theorem job_limit_default_c7_counterexample :
    (createJob "ai" (some (-3))).limit = -3
    ∧ (-3 : Int) ≤ 0
    ∧ (createJob "ai" (some (-3))).limit ≠ 50000 := by
  refine ⟨rfl, by norm_num, ?_⟩
  intro h
  have h' : (-3 : Int) = 50000 := h
  norm_num at h'

/-- C7 (amended): the stored limit is 50000 exactly when the supplied limit
is absent or equal to 0; any nonzero supplied limit — including a negative
one — is stored unchanged. -/
theorem job_limit_default_c7 (query : String) (l : Int) (hl : l ≠ 0) :
    (createJob query (some l)).limit = l
    ∧ (createJob query (some 0)).limit = 50000
    ∧ (createJob query none).limit = 50000 := by
  refine ⟨?_, rfl, rfl⟩
  show (if l = 0 then 50000 else l) = l
  rw [if_neg hl]

/-- Witness for C7 (amended). -/
theorem job_limit_default_c7_witness :
    ((-7 : Int) ≠ 0) ∧ (createJob "energy" (some (-7))).limit = -7 :=
  ⟨by norm_num, (job_limit_default_c7 "energy" (-7) (by norm_num)).1⟩

/-- C8: every record returned by `Collector.collect` is fully normalized: it
arises from `_normalize_post`, whose output always carries a present (non-null)
author location (defaulted to "Unknown" when the adapter supplied none), a
present non-empty sentiment label, and a present sentiment score which lies in
`[-1, 1]` whenever it was computed from the text by the scorer rather than
passed through. -/
theorem collector_normalization_c8 (jid : Nat) (q : String) (limit : Int)
    (adapters : List Adapter) (posts : List Post) (p : Post)
    (hc : collect jid q limit adapters = Except.ok posts) (hp : p ∈ posts) :
    p.authorLocation ≠ "" ∧ p.sentimentLabel ≠ ""
    ∧ ∃ e, p = toPost jid e
        ∧ (normalizePost e).authorLocation = some p.authorLocation
        ∧ (normalizePost e).sentimentLabel = some p.sentimentLabel
        ∧ (normalizePost e).sentimentScore = some p.sentimentScore
        ∧ (e.authorLocation = none → p.authorLocation = "Unknown")
        ∧ (shortCircuits e.sentimentLabel e.sentimentScore = false →
            -1 ≤ p.sentimentScore ∧ p.sentimentScore ≤ 1) := by
  have hca := ((collect_ok_iff jid q limit adapters posts).mp hc).1
  obtain ⟨e, hpe⟩ := collectAdapters_mem jid q adapters limit posts p hca hp
  subst hpe
  refine ⟨?_, ?_, e, rfl, rfl, rfl, rfl, ?_, ?_⟩
  · rw [toPost_authorLocation]
    exact locTruthy_ne_empty _
  · rw [toPost_sentimentLabel]
    exact evaluate_fst_ne_empty _ _ _
  · intro hnone
    rw [toPost_authorLocation, hnone]
    rfl
  · intro hsc
    rw [toPost_sentimentScore, evaluate_no_short _ _ _ hsc, evalText_snd]
    exact normalizedScore_bounds e.content

/-- A raw record with no location and no sentiment, for the C8 witness. -/
def postW : ExternalPost :=
  { content := "all good", source := "Twitter", collectedAt := 0,
    authorLocation := none, sentimentLabel := none, sentimentScore := none }

/-- A configured single-record adapter for the C8 witness. -/
def adapterW : Adapter :=
  { configured := true, fetch := fun _ _ => Except.ok [postW] }

/-- Witness for C8 at a concrete collection run. -/
theorem collector_normalization_c8_witness :
    collect 1 "q" 5 [adapterW] = Except.ok [toPost 1 postW]
    ∧ (toPost 1 postW).authorLocation ≠ "" := by
  have ht : takePosts 1 5 [postW] = ([toPost 1 postW], 4) := by
    rw [takePosts_full 1 [postW] 5 (by simp)]
    norm_num
  have hcol : collect 1 "q" 5 [adapterW] = Except.ok [toPost 1 postW] := by
    unfold collect
    rw [collectAdapters_fetch2 1 "q" 5 adapterW [] [postW] [toPost 1 postW] 4
      (by norm_num) rfl rfl ht]
    rw [collectAdapters_nil 1 "q" 4]
    rfl
  exact ⟨hcol, (collector_normalization_c8 1 "q" 5 [adapterW] [toPost 1 postW]
    (toPost 1 postW) hcol (List.mem_singleton.mpr rfl)).1⟩

/-! ## Analyzer embedding -/

section AnalyzerDefs

variable {α : Type} [DecidableEq α]

/-- The distinct keys of a list in first-seen order: the iteration order of a
Python `Counter` built from the list (insertion-ordered dict). -/
def firstSeenKeys : List α → List α
  | [] => []
  | k :: ks => k :: (firstSeenKeys ks).filter (fun x => decide (x ≠ k))

/-- `Counter(keys).items()`: each distinct key with its multiplicity, in
first-seen order. -/
def counterItems (keys : List α) : List (α × Nat) :=
  (firstSeenKeys keys).map (fun k => (k, keys.count k))

/-- Stable descending insertion by count: the new entry goes after every
entry with a strictly greater count and before the first entry with a
smaller-or-equal count. -/
def insertDesc (x : α × Nat) : List (α × Nat) → List (α × Nat)
  | [] => [x]
  | y :: ys => if x.2 < y.2 then y :: insertDesc x ys else x :: y :: ys

/-- Stable sort by count descending (the order produced by
`Counter.most_common`, which is stable for ties). -/
def sortDesc : List (α × Nat) → List (α × Nat)
  | [] => []
  | x :: xs => insertDesc x (sortDesc xs)

/-- `Counter.most_common(n)`: the `n` largest counts, stably ordered. -/
def mostCommon (n : Nat) (l : List (α × Nat)) : List (α × Nat) :=
  (sortDesc l).take n

/-- Index of the first occurrence of `a` in a list (length of the list when
absent). -/
def firstIdx (a : α) : List α → Nat
  | [] => 0
  | x :: xs => if x = a then 0 else firstIdx a xs + 1

end AnalyzerDefs

/-- The aggregate row built by `Analyzer.analyze` (`Analysis` in
`app/models.py`); the charts and the day histogram are rendering-side
artifacts outside the claims. -/
structure AggregateResult where
  totalCount : Nat
  positiveCount : Nat
  negativeCount : Nat
  neutralCount : Nat
  averageScore : Rat
  topLocations : List (String × Nat)
  topSources : List (String × Nat)
deriving DecidableEq

/-- `Analyzer.analyze`: fail on an empty record set, otherwise count the three
sentiment buckets, average the scores, and keep the five most common
locations and sources. -/
def analyze (posts : List Post) : Except String AggregateResult :=
  if posts.isEmpty then Except.error "No posts to analyze"
  else Except.ok
    { totalCount := posts.length
      positiveCount := posts.countP (fun p => p.sentimentLabel == "positive")
      negativeCount := posts.countP (fun p => p.sentimentLabel == "negative")
      neutralCount := posts.countP (fun p => p.sentimentLabel == "neutral")
      averageScore := (posts.map (fun p => p.sentimentScore)).sum / (posts.length : Rat)
      topLocations := mostCommon 5 (counterItems (posts.map (fun p => p.authorLocation)))
      topSources := mostCommon 5 (counterItems (posts.map (fun p => p.source))) }

section SortLemmas

theorem insertDesc_split {α : Type} (x : α × Nat) :
    ∀ l : List (α × Nat), ∃ p s, l = p ++ s ∧ insertDesc x l = p ++ x :: s
      ∧ ∀ y ∈ p, x.2 < y.2 := by
  intro l
  induction l with
  | nil => exact ⟨[], [], rfl, rfl, by simp⟩
  | cons y ys ih =>
    by_cases hy : x.2 < y.2
    · obtain ⟨p, s, hls, hins, hgt⟩ := ih
      refine ⟨y :: p, s, by rw [hls]; rfl, ?_, ?_⟩
      · show insertDesc x (y :: ys) = y :: (p ++ x :: s)
        simp only [insertDesc, if_pos hy, hins]
      · intro z hz
        rcases List.mem_cons.mp hz with hz | hz
        · subst hz; exact hy
        · exact hgt z hz
    · refine ⟨[], y :: ys, rfl, ?_, by simp⟩
      show insertDesc x (y :: ys) = x :: y :: ys
      simp only [insertDesc, if_neg hy]

theorem mem_insertDesc {α : Type} (x z : α × Nat) :
    ∀ l : List (α × Nat), z ∈ insertDesc x l ↔ z = x ∨ z ∈ l := by
  intro l
  obtain ⟨p, s, hls, hins, -⟩ := insertDesc_split x l
  rw [hins, hls]
  simp [List.mem_append, List.mem_cons]
  tauto

theorem pairwise_insertDesc {α : Type} (x : α × Nat) :
    ∀ l : List (α × Nat), List.Pairwise (fun u v => v.2 ≤ u.2) l →
      List.Pairwise (fun u v => v.2 ≤ u.2) (insertDesc x l) := by
  intro l
  induction l with
  | nil => intro _; simp [insertDesc]
  | cons y ys ih =>
    intro h
    rw [List.pairwise_cons] at h
    by_cases hy : x.2 < y.2
    · show List.Pairwise _ (if x.2 < y.2 then y :: insertDesc x ys else x :: y :: ys)
      rw [if_pos hy, List.pairwise_cons]
      constructor
      · intro z hz
        rcases (mem_insertDesc x z ys).mp hz with hz | hz
        · subst hz; exact le_of_lt hy
        · exact h.1 z hz
      · exact ih h.2
    · show List.Pairwise _ (if x.2 < y.2 then y :: insertDesc x ys else x :: y :: ys)
      rw [if_neg hy, List.pairwise_cons]
      constructor
      · intro z hz
        rcases List.mem_cons.mp hz with hz | hz
        · subst hz; omega
        · have := h.1 z hz
          omega
      · rw [List.pairwise_cons]
        exact h

theorem pairwise_sortDesc {α : Type} :
    ∀ l : List (α × Nat), List.Pairwise (fun u v => v.2 ≤ u.2) (sortDesc l) := by
  intro l
  induction l with
  | nil => simp [sortDesc]
  | cons x xs ih => exact pairwise_insertDesc x (sortDesc xs) ih

theorem filter_insertDesc {α : Type} (x : α × Nat) (c : Nat) (l : List (α × Nat)) :
    (insertDesc x l).filter (fun y => y.2 == c)
      = if x.2 = c then x :: l.filter (fun y => y.2 == c)
        else l.filter (fun y => y.2 == c) := by
  obtain ⟨p, s, hls, hins, hgt⟩ := insertDesc_split x l
  rw [hins, hls, List.filter_append, List.filter_append]
  by_cases hx : x.2 = c
  · rw [if_pos hx]
    have hp : p.filter (fun y => y.2 == c) = [] := by
      rw [List.filter_eq_nil_iff]
      intro y hy
      have := hgt y hy
      simp only [beq_iff_eq]
      omega
    rw [hp]
    simp [hx]
  · rw [if_neg hx]
    have hxf : (List.filter (fun y => y.2 == c) (x :: s)) = s.filter (fun y => y.2 == c) := by
      rw [List.filter_cons]
      simp [hx]
    rw [hxf]

theorem filter_sortDesc {α : Type} (c : Nat) :
    ∀ l : List (α × Nat),
      (sortDesc l).filter (fun y => y.2 == c) = l.filter (fun y => y.2 == c) := by
  intro l
  induction l with
  | nil => rfl
  | cons x xs ih =>
    show (insertDesc x (sortDesc xs)).filter (fun y => y.2 == c) = _
    rw [filter_insertDesc x c (sortDesc xs), List.filter_cons]
    by_cases hx : x.2 = c
    · rw [if_pos hx, ih]
      simp [hx]
    · rw [if_neg hx, ih]
      simp [hx]

end SortLemmas

section KeyLemmas

variable {α : Type} [DecidableEq α]

theorem mem_firstSeenKeys (a : α) :
    ∀ keys : List α, a ∈ firstSeenKeys keys ↔ a ∈ keys := by
  intro keys
  induction keys with
  | nil => simp [firstSeenKeys]
  | cons k ks ih =>
    show a ∈ k :: (firstSeenKeys ks).filter (fun x => decide (x ≠ k)) ↔ _
    rw [List.mem_cons, List.mem_cons]
    by_cases hak : a = k
    · simp [hak]
    · simp only [hak, false_or]
      rw [List.mem_filter]
      simp [hak, ih]

theorem sublist_firstSeen_firstIdx (a b : α) :
    ∀ keys : List α, List.Sublist [a, b] (firstSeenKeys keys) →
      firstIdx a keys < firstIdx b keys := by
  intro keys
  induction keys with
  | nil => intro h; cases h
  | cons k ks ih =>
    intro h
    have hfs : firstSeenKeys (k :: ks)
        = k :: (firstSeenKeys ks).filter (fun x => decide (x ≠ k)) := rfl
    rw [hfs] at h
    cases h with
    | cons _ h' =>
      have hsub : [a, b] ⊆ (firstSeenKeys ks).filter (fun x => decide (x ≠ k)) :=
        h'.subset
      have ha : a ∈ (firstSeenKeys ks).filter (fun x => decide (x ≠ k)) :=
        hsub (by simp)
      have hb : b ∈ (firstSeenKeys ks).filter (fun x => decide (x ≠ k)) :=
        hsub (by simp)
      have hak : a ≠ k := by
        have := (List.mem_filter.mp ha).2
        simpa using this
      have hbk : b ≠ k := by
        have := (List.mem_filter.mp hb).2
        simpa using this
      have h'' : List.Sublist [a, b] (firstSeenKeys ks) :=
        h'.trans (List.filter_sublist _)
      have := ih h''
      show (if k = a then 0 else firstIdx a ks + 1)
          < (if k = b then 0 else firstIdx b ks + 1)
      rw [if_neg (fun hk => hak hk.symm), if_neg (fun hk => hbk hk.symm)]
      omega
    | cons₂ _ h' =>
      have hb : b ∈ (firstSeenKeys ks).filter (fun x => decide (x ≠ a)) :=
        h'.subset (by simp)
      have hbk : b ≠ a := by
        have := (List.mem_filter.mp hb).2
        simpa using this
      show (if a = a then 0 else firstIdx a ks + 1)
          < (if a = b then 0 else firstIdx b ks + 1)
      rw [if_pos rfl, if_neg (fun hk => hbk hk.symm)]
      omega

theorem counterItems_fst (keys : List α) :
    (counterItems keys).map Prod.fst = firstSeenKeys keys := by
  unfold counterItems
  rw [List.map_map]
  have h : (Prod.fst ∘ fun k => (k, keys.count k)) = id := rfl
  rw [h, List.map_id]

theorem mostCommon_tie (keys : List α) (a b : α) (c n : Nat)
    (h : List.Sublist [(a, c), (b, c)] (mostCommon n (counterItems keys))) :
    firstIdx a keys < firstIdx b keys := by
  have h1 : List.Sublist [(a, c), (b, c)] (sortDesc (counterItems keys)) :=
    h.trans (List.take_sublist n _)
  have h2 : List.Sublist [(a, c), (b, c)]
      ((sortDesc (counterItems keys)).filter (fun y => y.2 == c)) := by
    have := h1.filter (fun y => y.2 == c)
    simpa using this
  rw [filter_sortDesc c (counterItems keys)] at h2
  have h3 : List.Sublist [(a, c), (b, c)] (counterItems keys) :=
    h2.trans (List.filter_sublist _)
  have h4 : List.Sublist [a, b] ((counterItems keys).map Prod.fst) := by
    have := h3.map Prod.fst
    simpa using this
  rw [counterItems_fst] at h4
  exact sublist_firstSeen_firstIdx a b keys h4

end KeyLemmas

theorem countP_three_labels :
    ∀ posts : List Post,
      (∀ p ∈ posts, p.sentimentLabel = "positive" ∨ p.sentimentLabel = "neutral"
        ∨ p.sentimentLabel = "negative") →
      posts.countP (fun p => p.sentimentLabel == "positive")
      + posts.countP (fun p => p.sentimentLabel == "neutral")
      + posts.countP (fun p => p.sentimentLabel == "negative") = posts.length := by
  intro posts
  induction posts with
  | nil => intro _; simp
  | cons p ps ih =>
    intro h
    have hp := h p (List.mem_cons_self p ps)
    have hih := ih (fun r hr => h r (List.mem_cons_of_mem p hr))
    simp only [List.countP_cons, List.length_cons]
    rcases hp with hl | hl | hl <;> simp [hl] <;> omega

/-- The single record with a non-standard label for the C4 counterexample. -/
def mixedPost : Post :=
  { jobId := 1, source := "Stub", authorLocation := "Earth", content := "x",
    collectedAt := 0, sentimentLabel := "mixed", sentimentScore := (1 : Rat)/2 }

/-- The aggregate `Analyzer.analyze` produces on `[mixedPost]`. -/
def mixedAgg : AggregateResult :=
  { totalCount := 1, positiveCount := 0, negativeCount := 0, neutralCount := 0,
    averageScore := (1 : Rat)/2, topLocations := [("Earth", 1)],
    topSources := [("Stub", 1)] }

/-- C4 counterexample: a non-empty record sequence whose (pass-through) label
is neither positive, neutral nor negative; `Analyzer.analyze` succeeds but the
three bucket counts sum to 0 while total_count is 1. -/
theorem aggregate_counts_c4_counterexample :
    analyze [mixedPost] = Except.ok mixedAgg
    ∧ mixedAgg.positiveCount + mixedAgg.neutralCount + mixedAgg.negativeCount
        ≠ mixedAgg.totalCount := by
  constructor
  · unfold analyze
    rw [if_neg (by simp)]
    simp only [mixedAgg, Except.ok.injEq, AggregateResult.mk.injEq]
    refine ⟨by decide, by decide, by decide, by decide, ?_, by decide, by decide⟩
    show (List.map (fun p => p.sentimentScore) [mixedPost]).sum
        / (([mixedPost] : List Post).length : Rat) = (1 : Rat)/2
    show ((1 : Rat)/2 + 0) / ((1 : Nat) : Rat) = (1 : Rat)/2
    norm_num
  · decide

/-- C4 (amended): for every non-empty record sequence whose sentiment labels
all lie in {positive, neutral, negative} (as the scorer produces whenever no
pre-existing label is passed through), the aggregate satisfies
`positive_count + neutral_count + negative_count = total_count`, and
`total_count` is the number of input records. -/
theorem aggregate_counts_c4 (posts : List Post) (r : AggregateResult)
    (hlab : ∀ p ∈ posts, p.sentimentLabel = "positive" ∨ p.sentimentLabel = "neutral"
      ∨ p.sentimentLabel = "negative")
    (h : analyze posts = Except.ok r) :
    r.positiveCount + r.neutralCount + r.negativeCount = r.totalCount
    ∧ r.totalCount = posts.length := by
  unfold analyze at h
  split at h
  · cases h
  · injection h with h
    subst h
    exact ⟨countP_three_labels posts hlab, rfl⟩

/-- A single well-labelled record used by the C4 and C9 witnesses. -/
def posPost : Post :=
  { jobId := 0, source := "Twitter", authorLocation := "Earth", content := "good",
    collectedAt := 0, sentimentLabel := "positive", sentimentScore := 1 }

/-- The aggregate `Analyzer.analyze` produces on `[posPost]`. -/
def posAgg : AggregateResult :=
  { totalCount := 1, positiveCount := 1, negativeCount := 0, neutralCount := 0,
    averageScore := 1, topLocations := [("Earth", 1)], topSources := [("Twitter", 1)] }

theorem analyze_posPost : analyze [posPost] = Except.ok posAgg := by
  unfold analyze
  rw [if_neg (by simp)]
  simp only [posAgg, Except.ok.injEq, AggregateResult.mk.injEq]
  refine ⟨by decide, by decide, by decide, by decide, ?_, by decide, by decide⟩
  show (List.map (fun p => p.sentimentScore) [posPost]).sum
      / (([posPost] : List Post).length : Rat) = (1 : Rat)
  show ((1 : Rat) + 0) / ((1 : Nat) : Rat) = (1 : Rat)
  norm_num

/-- Witness for C4 (amended). -/
theorem aggregate_counts_c4_witness :
    analyze [posPost] = Except.ok posAgg
    ∧ posAgg.positiveCount + posAgg.neutralCount + posAgg.negativeCount
        = posAgg.totalCount :=
  ⟨analyze_posPost,
    (aggregate_counts_c4 [posPost] posAgg
      (by
        intro p hp
        rw [List.mem_singleton] at hp
        subst hp
        left
        rfl)
      analyze_posPost).1⟩

/-- C9: on every successful aggregation, `top_locations` and `top_sources`
hold at most five entries, are ordered by count descending, and entries with
equal counts appear in first-seen order of the corresponding key in the input
record sequence. -/
theorem aggregate_top5_c9 (posts : List Post) (r : AggregateResult)
    (h : analyze posts = Except.ok r) :
    r.topLocations.length ≤ 5
    ∧ List.Pairwise (fun u v => v.2 ≤ u.2) r.topLocations
    ∧ (∀ a b c, List.Sublist [(a, c), (b, c)] r.topLocations →
        firstIdx a (posts.map (fun p => p.authorLocation))
          < firstIdx b (posts.map (fun p => p.authorLocation)))
    ∧ r.topSources.length ≤ 5
    ∧ List.Pairwise (fun u v => v.2 ≤ u.2) r.topSources
    ∧ (∀ a b c, List.Sublist [(a, c), (b, c)] r.topSources →
        firstIdx a (posts.map (fun p => p.source))
          < firstIdx b (posts.map (fun p => p.source))) := by
  unfold analyze at h
  split at h
  · cases h
  · injection h with h
    subst h
    refine ⟨?_, ?_, ?_, ?_, ?_, ?_⟩
    · exact List.length_take_le 5 _
    · exact (pairwise_sortDesc _).sublist (List.take_sublist 5 _)
    · intro a b c hsub
      exact mostCommon_tie (posts.map (fun p => p.authorLocation)) a b c 5 hsub
    · exact List.length_take_le 5 _
    · exact (pairwise_sortDesc _).sublist (List.take_sublist 5 _)
    · intro a b c hsub
      exact mostCommon_tie (posts.map (fun p => p.source)) a b c 5 hsub

/-- Witness for C9. -/
theorem aggregate_top5_c9_witness :
    analyze [posPost] = Except.ok posAgg ∧ posAgg.topLocations.length ≤ 5 :=
  ⟨analyze_posPost, (aggregate_top5_c9 [posPost] posAgg analyze_posPost).1⟩
